import Mathlib

/-!
Verification of the knowledge-base classification and aggregation engine of
`src/components/MemoryStatus.tsx` (the `categorize` rule cascade, the dual
JSON/markdown parse paths, the per-category statistics, and the belief
parser).  The TypeScript code is shallowly embedded: JavaScript strings are
Lean `String`s, JSON values are an inductive `Json` type, `JSON.parse` is a
total fuel-based recursive-descent parser returning `Option Json`, and the
dynamic (exception-throwing) parts of the code are functions into
`Except Unit`.  Floating-point `toFixed(1)` percentages are modelled by
exact rational arithmetic with round-half-up decimal rounding.
-/

/-- Model of a JavaScript JSON value (result of `JSON.parse`).  Numbers are
modelled as exact rationals; object keys are kept unique in insertion order
(later duplicate keys overwrite the stored value, as in JavaScript). -/
inductive Json where
  | null : Json
  | bool (b : Bool) : Json
  | num (q : ℚ) : Json
  | str (s : String) : Json
  | arr (elems : List Json) : Json
  | obj (kvs : List (String × Json)) : Json

/-! ## JavaScript string primitives, modelled over `List Char` -/

/-- Models `String.prototype.toUpperCase` (ASCII range, which is all the
source's keyword tables use). -/
def jsToUpper (s : String) : String := String.mk (s.toList.map Char.toUpper)

/-- Whitespace trimming on a character list (both ends). -/
def trimList (l : List Char) : List Char :=
  ((l.dropWhile Char.isWhitespace).reverse.dropWhile Char.isWhitespace).reverse

/-- Models `String.prototype.trim`. -/
def jsTrim (s : String) : String := String.mk (trimList s.toList)

/-- Models `String.prototype.startsWith`. -/
def jsStartsWith (s pre : String) : Bool := pre.toList.isPrefixOf s.toList

/-- Is `pat` a contiguous sublist of the second argument? -/
def isSubList (pat : List Char) : List Char → Bool
  | [] => pat.isPrefixOf []
  | c :: t => pat.isPrefixOf (c :: t) || isSubList pat t

/-- Models `String.prototype.includes` (substring containment). -/
def jsIncludes (s sub : String) : Bool := isSubList sub.toList s.toList

/-- Split a character list at every occurrence of `sep`, keeping empty
pieces (JavaScript `split` semantics for a single-character separator). -/
def splitOnChar (sep : Char) : List Char → List (List Char)
  | [] => [[]]
  | c :: rest =>
    match splitOnChar sep rest with
    | [] => [[]]
    | h :: t => if c == sep then [] :: h :: t else (c :: h) :: t

/-- Models `s.split(sep)` for a one-character separator string. -/
def jsSplit (s : String) (sep : Char) : List String :=
  (splitOnChar sep s.toList).map String.mk

/-- The source's `s.toUpperCase().trim()` normalization. -/
def normUp (s : String) : String := jsTrim (jsToUpper s)

/-! ## A total model of `JSON.parse` -/

/-- Skip JSON whitespace (space, tab, newline, carriage return). -/
def skipWs (cs : List Char) : List Char :=
  cs.dropWhile (fun c => c == ' ' || c == '\t' || c == '\n' || c == '\r')

/-- Value of a hexadecimal digit character. -/
def hexVal (c : Char) : Option Nat :=
  if c.isDigit then some (c.toNat - 48)
  else if 'a' ≤ c && c ≤ 'f' then some (c.toNat - 87)
  else if 'A' ≤ c && c ≤ 'F' then some (c.toNat - 55)
  else none

/-- Parse the body of a JSON string literal (after the opening quote),
handling the escape sequences `JSON.parse` accepts.  `acc` holds the
already-read characters in reverse order. -/
def parseStringBody (acc : List Char) : Nat → List Char → Except Unit (String × List Char)
  | 0, _ => .error ()
  | _, [] => .error ()
  | fuel + 1, c :: cs =>
    if c == '"' then .ok (String.mk acc.reverse, cs)
    else if c == '\\' then
      match cs with
      | [] => .error ()
      | e :: cs2 =>
        if e == '"' then parseStringBody ('"' :: acc) fuel cs2
        else if e == '\\' then parseStringBody ('\\' :: acc) fuel cs2
        else if e == '/' then parseStringBody ('/' :: acc) fuel cs2
        else if e == 'b' then parseStringBody ('\x08' :: acc) fuel cs2
        else if e == 'f' then parseStringBody ('\x0c' :: acc) fuel cs2
        else if e == 'n' then parseStringBody ('\n' :: acc) fuel cs2
        else if e == 'r' then parseStringBody ('\x0d' :: acc) fuel cs2
        else if e == 't' then parseStringBody ('\t' :: acc) fuel cs2
        else if e == 'u' then
          match cs2 with
          | h1 :: h2 :: h3 :: h4 :: cs3 =>
            match hexVal h1, hexVal h2, hexVal h3, hexVal h4 with
            | some a, some b, some c2, some d =>
                parseStringBody (Char.ofNat (a * 4096 + b * 256 + c2 * 16 + d) :: acc) fuel cs3
            | _, _, _, _ => .error ()
          | _ => .error ()
        else .error ()
    else if c.toNat < 32 then .error ()
    else parseStringBody (c :: acc) fuel cs

/-- Consume a run of decimal digits, returning the accumulated value, the
number of digits read, and the rest. -/
def takeDigits (acc : Nat) (n : Nat) : List Char → Nat × Nat × List Char
  | [] => (acc, n, [])
  | c :: cs =>
    if c.isDigit then takeDigits (acc * 10 + (c.toNat - 48)) (n + 1) cs
    else (acc, n, c :: cs)

/-- Parse a JSON number (sign, integer part with no leading zeros, optional
fraction, optional exponent) into an exact rational. -/
def parseNumber (cs : List Char) : Except Unit (ℚ × List Char) :=
  let signed : Bool × List Char :=
    match cs with
    | c :: t => if c == '-' then (true, t) else (false, cs)
    | [] => (false, [])
  let neg := signed.1
  let cs1 := signed.2
  match cs1 with
  | [] => .error ()
  | c0 :: rest0 =>
    if ¬ c0.isDigit then .error ()
    else if c0 == '0' && (match rest0 with | c1 :: _ => c1.isDigit | [] => false) then .error ()
    else
      let ip := takeDigits 0 0 cs1
      let ipart := ip.1
      let cs2 := ip.2.2
      let fr : Nat × Nat × List Char :=
        match cs2 with
        | '.' :: cs3 =>
          (match cs3 with
           | c :: _ => if c.isDigit then takeDigits 0 0 cs3 else (0, 0, cs2)
           | [] => (0, 0, cs2))
        | _ => (0, 0, cs2)
      let fval := fr.1
      let fcnt := fr.2.1
      let cs4 := if fcnt == 0 then cs2 else fr.2.2
      let badFrac : Bool := match cs2 with
        | '.' :: _ => fcnt == 0
        | _ => false
      if badFrac then .error ()
      else
        let ex : Option (Int × List Char) :=
          match cs4 with
          | c :: cs5 =>
            if c == 'e' || c == 'E' then
              let esigned : Bool × List Char :=
                match cs5 with
                | d :: t => if d == '-' then (true, t) else if d == '+' then (false, t) else (false, cs5)
                | [] => (false, [])
              match esigned.2 with
              | d :: _ =>
                if d.isDigit then
                  let ed := takeDigits 0 0 esigned.2
                  some ((if esigned.1 then -(ed.1 : Int) else (ed.1 : Int)), ed.2.2)
                else none
              | [] => none
            else some (0, cs4)
          | [] => some (0, cs4)
        match ex with
        | none => .error ()
        | some (e, cs6) =>
          let numAbs : Nat := ipart * 10 ^ fcnt + fval
          let scaledNum : Nat := if 0 ≤ e then numAbs * 10 ^ e.toNat else numAbs
          let den : Nat := if 0 ≤ e then 10 ^ fcnt else 10 ^ fcnt * 10 ^ (-e).toNat
          .ok (mkRat (if neg then -(scaledNum : Int) else (scaledNum : Int)) den, cs6)

/-- Insert a key-value pair into an object's binding list, overwriting the
value of an existing key in place (JavaScript object semantics). -/
def insertKV (kvs : List (String × Json)) (k : String) (v : Json) : List (String × Json) :=
  match kvs with
  | [] => [(k, v)]
  | (k1, v1) :: rest => if k1 == k then (k1, v) :: rest else (k1, v1) :: insertKV rest k v

/-- A pending parse task: a value, the items of a nonempty array (after
`[`), or the members of a nonempty object (after the opening brace).  The
three mutually recursive procedures are merged into one fuel-indexed
function so that it is structurally recursive (and therefore reduces
inside the kernel). -/
inductive ParseTask where
  | val (cs : List Char) : ParseTask
  | arrItems (acc : List Json) (cs : List Char) : ParseTask
  | objItems (acc : List (String × Json)) (cs : List Char) : ParseTask

/-- Run one parse task.  `ParseTask.val` parses one JSON value and returns
it with the unconsumed remainder; the other two tasks parse the elements of
a nonempty array or the members of a nonempty object. -/
def parseRun : Nat → ParseTask → Except Unit (Json × List Char)
  | 0, _ => .error ()
  | fuel + 1, .val cs0 =>
    let cs := skipWs cs0
    if "true".toList.isPrefixOf cs then .ok (.bool true, cs.drop 4)
    else if "false".toList.isPrefixOf cs then .ok (.bool false, cs.drop 5)
    else if "null".toList.isPrefixOf cs then .ok (.null, cs.drop 4)
    else
      match cs with
      | [] => .error ()
      | c :: rest =>
        if c == '"' then
          match parseStringBody [] (rest.length + 1) rest with
          | .ok (s, r) => .ok (.str s, r)
          | .error _ => .error ()
        else if c == '[' then
          match skipWs rest with
          | ']' :: r2 => .ok (.arr [], r2)
          | _ => parseRun fuel (.arrItems [] rest)
        else if c == '{' then
          match skipWs rest with
          | '}' :: r2 => .ok (.obj [], r2)
          | _ => parseRun fuel (.objItems [] rest)
        else if c == '-' || c.isDigit then
          match parseNumber cs with
          | .ok (q, r) => .ok (.num q, r)
          | .error _ => .error ()
        else .error ()
  | fuel + 1, .arrItems acc cs =>
    match parseRun fuel (.val cs) with
    | .error _ => .error ()
    | .ok (v, r) =>
      match skipWs r with
      | ',' :: r2 => parseRun fuel (.arrItems (v :: acc) r2)
      | ']' :: r2 => .ok (.arr (v :: acc).reverse, r2)
      | _ => .error ()
  | fuel + 1, .objItems acc cs =>
    match skipWs cs with
    | '"' :: rest =>
      match parseStringBody [] (rest.length + 1) rest with
      | .error _ => .error ()
      | .ok (k, r) =>
        match skipWs r with
        | ':' :: r2 =>
          match parseRun fuel (.val r2) with
          | .error _ => .error ()
          | .ok (v, r3) =>
            match skipWs r3 with
            | ',' :: r4 => parseRun fuel (.objItems (insertKV acc k v) r4)
            | '}' :: r4 => .ok (.obj (insertKV acc k v), r4)
            | _ => .error ()
        | _ => .error ()
    | _ => .error ()

/-- Model of `JSON.parse`: `none` exactly when the JavaScript call throws. -/
def jsonParse (s : String) : Option Json :=
  match parseRun (2 * s.length + 2) (.val s.toList) with
  | .ok (j, rest) => if (skipWs rest).isEmpty then some j else none
  | .error _ => none

/-! ## Data model (the `ParsedEntry`, `ParsedBelief`, `CategoryStat` interfaces) -/

/-- One parsed knowledge-base entry (interface `ParsedEntry` in the source).
`fingerprint` and `nrci` are carried through for display only and keep their
raw JSON values (`none` models JavaScript `undefined`). -/
structure ParsedEntry where
  id : String
  name : String
  tags : List String
  fingerprint : Option Json
  nrci : Option Json
  raw : String
  category : String

/-- One parsed belief (interface `ParsedBelief`).  The source stores whatever
JSON values the `||`-chains produce, so `id` and `description` are `Json`;
`certainty` keeps the raw `nrci_score` value when truthy (the source shows it
as the display string `NRCI: <score>`). -/
structure ParsedBelief where
  id : Json
  description : Json
  certainty : Option Json

/-- One aggregate row (interface `CategoryStat`).  The source stores
`percent` as the display string `(count / total * 100).toFixed(1) + '%'`;
it is modelled as the exact decimally-rounded rational. -/
structure CategoryStat where
  code : String
  count : Nat
  description : String
  percent : ℚ

/-! ## The geometric domain mapper `categorize` (lines 42-145) -/

/-- Rules 1-3 of `categorize`: the tag cascade evaluated on the normalized
`combined` list (everything after the `LAW_` id override). -/
def tagCascade (combined : List String) : String :=
  if combined.contains "SUBSTANCE" then "SUBSTANCE"
  else if combined.contains "ORGANISM" then "ORGANISM"
  else if combined.contains "ALGORITHM" then "ALGORITHM"
  else if combined.contains "QUANTITY" then "QUANTITY"
  else if combined.contains "MECHANISM" then "MECHANISM"
  else if combined.contains "IMPERATIVE" then "IMPERATIVE"
  else if combined.contains "ENTROPY" then "ENTROPY"
  else if combined.contains "MEANING" then "MEANING"
  else if combined.any (fun s => s == "ENGLISH" || s == "VOCABULARY" || jsIncludes s "VOCAB") then "MEANING"
  else if combined.any (fun s => s == "PHYSICS" || s == "EARTH" || jsIncludes s "EARTH_SCIENCE") then "MECHANISM"
  else if combined.any (fun s => s == "MATH" || s == "MATHEMATICS") then "QUANTITY"
  else if combined.any (fun s => s == "CHEMISTRY") then "SUBSTANCE"
  else if combined.any (fun s => s == "PSYCHOLOGY" || s == "BIOLOGY") then "ORGANISM"
  else if combined.any (fun s => s == "PYTHON" || s == "CS" || s == "COMPUTER SCIENCE") then "ALGORITHM"
  else if combined.any (fun s =>
      jsIncludes s "LAW" || jsIncludes s "RULE" || jsIncludes s "AXIOM" ||
      jsIncludes s "STANDARD" || jsIncludes s "PRINCIPLE" || jsIncludes s "REQ" ||
      jsIncludes s "PROTOCOL" || jsIncludes s "COMMAND") then "IMPERATIVE"
  else if combined.any (fun s =>
      jsIncludes s "ELEMENT" || jsIncludes s "PERIODIC" || jsIncludes s "METAL" ||
      jsIncludes s "GAS" || jsIncludes s "LIQUID" || jsIncludes s "MATTER" ||
      jsIncludes s "ATOM" || jsIncludes s "MOLECULE" || jsIncludes s "CHEMICAL" ||
      jsIncludes s "MINERAL" || jsIncludes s "PLASTIC" || jsIncludes s "GRAPHENE" ||
      jsStartsWith s "MAT_" || jsStartsWith s "ELEM_") then "SUBSTANCE"
  else if combined.any (fun s =>
      jsIncludes s "BIO" || jsIncludes s "LIFE" || jsIncludes s "CELL" ||
      jsIncludes s "DNA" || jsIncludes s "ORGANIC" || jsIncludes s "ANIMAL" ||
      jsIncludes s "PLANT" || jsIncludes s "FUNGUS" || jsIncludes s "HEALTH" ||
      jsIncludes s "NEURO" || jsIncludes s "BODY" || jsIncludes s "CANCER") then "ORGANISM"
  else if combined.any (fun s =>
      jsIncludes s "ALGO" || jsIncludes s "CODE" || jsIncludes s "LOGIC" ||
      jsIncludes s "COMPUTE" || jsIncludes s "DATA" || jsIncludes s "PROCESS" ||
      jsIncludes s "FUNCTION" || jsIncludes s "NETWORK" || jsIncludes s "SYSTEM" ||
      jsIncludes s "INFO" || jsIncludes s "FRACTAL") then "ALGORITHM"
  else if combined.any (fun s =>
      jsIncludes s "NUM" || jsIncludes s "CONST" || jsIncludes s "UNIT" ||
      jsIncludes s "MEASURE" || jsIncludes s "VALUE" || jsIncludes s "RATIO" ||
      jsIncludes s "METRIC" || jsIncludes s "COORDINATE" || jsIncludes s "DIMENSION" ||
      jsIncludes s "GEOMETRY" || jsIncludes s "SHAPE" || jsStartsWith s "BIN_") then "QUANTITY"
  else if combined.any (fun s =>
      jsIncludes s "MECH" || jsIncludes s "PHYS" || jsIncludes s "ENERGY" ||
      jsIncludes s "FORCE" || jsIncludes s "MOTION" || jsIncludes s "WAVE" ||
      jsIncludes s "PARTICLE" || jsIncludes s "REACT" || jsIncludes s "KINETIC") then "MECHANISM"
  else if combined.any (fun s =>
      jsIncludes s "CHAOS" || jsIncludes s "VOID" || jsIncludes s "NULL" ||
      jsIncludes s "ERROR" || jsIncludes s "DECAY" || jsIncludes s "NOISE" ||
      jsIncludes s "UNKNOWN" || jsIncludes s "RANDOM") then "ENTROPY"
  else if combined.any (fun s =>
      jsIncludes s "WORD" || jsIncludes s "TERM" || jsIncludes s "SEMANTIC" ||
      jsIncludes s "CONCEPT" || jsIncludes s "IDEA" || jsIncludes s "SYMBOL" ||
      jsIncludes s "DEFINITION" || jsIncludes s "LANG") then "MEANING"
  else "UNCATEGORIZED"

/-- The source's `categorize(id, name, tags)` for string-typed arguments
(the declared TypeScript types): normalize, apply the `LAW_` id override,
then run the tag cascade on `[...tags, name]` normalized. -/
def categorize (id name : String) (tags : List String) : String :=
  let upperId := normUp id
  let combined := (tags ++ [name]).map normUp
  if jsStartsWith upperId "LAW_" then "IMPERATIVE" else tagCascade combined

/-! ## JavaScript dynamic-value helpers (truthiness, property access) -/

/-- JavaScript truthiness of a JSON value (note `[]` and empty objects are
truthy; `0`, `-0`, `""`, `null`, `false` are falsy). -/
def truthy : Json → Bool
  | .null => false
  | .bool b => b
  | .num q => !(q == 0)
  | .str s => !(s == "")
  | .arr _ => true
  | .obj _ => true

/-- Truthiness of a possibly-`undefined` value. -/
def truthyOpt : Option Json → Bool
  | some v => truthy v
  | none => false

/-- Models `base.key` property access: throws iff `base` is `null`;
a missing property (and any non-object base) yields `undefined` (`none`).
(String index/length properties are not accessed by this component.) -/
def getField (base : Json) (key : String) : Except Unit (Option Json) :=
  match base with
  | .null => .error ()
  | .obj kvs => .ok (kvs.lookup key)
  | _ => .ok none

/-- Models `lhs || rhs` where `lhs` is a possibly-`undefined` field value. -/
def jsOr (f : Option Json) (d : Json) : Json :=
  match f with
  | some v => if truthy v then v else d
  | none => d

/-- Models calling `.toUpperCase()` on a dynamic value: only strings
succeed, anything else raises `TypeError`. -/
def asString : Json → Except Unit String
  | .str s => .ok s
  | _ => .error ()

/-- Models spreading (`[...v]`) a dynamic value: arrays yield their
elements, strings their characters, everything else raises `TypeError`. -/
def jsElements : Json → Except Unit (List Json)
  | .arr l => .ok l
  | .str s => .ok (s.toList.map (fun c => Json.str (String.mk [c])))
  | _ => .error ()

/-! ## Structured (JSON-object) entry extraction (lines 151-165 and 186-202) -/

/-- Process one structured item exactly as the source's `forEach` body:
read `tags`/`ubp_id`/`name`/`fingerprint`/`nrci` (throws iff the item is
`null`), apply the `||` defaults, and build the entry.  The final
`categorize(id, name, tags)` call throws a `TypeError` (modelled by
`.error ()`) when `id` or `name` is not a string, when `tags` is not
spreadable, or when a spread tag element is not a string; in that case the
entry is not pushed. -/
def processItemWith (raw : String) (item : Json) : Except Unit ParsedEntry :=
  match getField item "tags", getField item "ubp_id", getField item "name",
        getField item "fingerprint", getField item "nrci" with
  | .ok tagsF, .ok idF, .ok nameF, .ok fpF, .ok nrciF =>
    match asString (jsOr idF (Json.str "UNKNOWN")) with
    | .error _ => .error ()
    | .ok idS =>
      match jsElements (jsOr tagsF (Json.arr [])) with
      | .error _ => .error ()
      | .ok elems =>
        match elems.mapM asString with
        | .error _ => .error ()
        | .ok tagsS =>
          match asString (jsOr nameF (Json.str "Untitled")) with
          | .error _ => .error ()
          | .ok nameS =>
            .ok { id := idS, name := nameS, tags := tagsS, fingerprint := fpF,
                  nrci := nrciF, raw := raw, category := categorize idS nameS tagsS }
  | _, _, _, _, _ => .error ()

/-- Models `Array.isArray(json) ? json : Object.values(json)`:
`Object.values` throws on `null`, yields the characters of a string, and
yields `[]` for numbers and booleans. -/
def topLevelList : Json → Except Unit (List Json)
  | .arr l => .ok l
  | .null => .error ()
  | .obj kvs => .ok (kvs.map (fun kv => kv.2))
  | .str s => .ok (s.toList.map (fun c => Json.str (String.mk [c])))
  | _ => .ok []

/-- Run the structured stage over the item list in order.  The boolean is
`true` when every item was processed; on the first type error the entries
pushed so far are kept (they were already appended to the shared `entries`
array) and the flag is `false`, which sends the source into its markdown
fallback. -/
def structuredRun : List Json → List ParsedEntry × Bool
  | [] => ([], true)
  | item :: rest =>
    match processItemWith "JSON Object" item with
    | .ok e =>
      let p := structuredRun rest
      (e :: p.1, p.2)
    | .error _ => ([], false)

/-! ## Line-based fallback (lines 168-204) -/

/-- Split a character list at the first occurrence of `pat`, returning the
part before it and the part after it.  This is the deterministic content of
the lazy regex fragments `(.*?)<literal>` used by the source: the engine
commits to the earliest occurrence of the literal (no later choice can
succeed if the earliest fails, because everything after these fragments in
the patterns always matches). -/
def splitFirst (pat : List Char) (l : List Char) : Option (List Char × List Char) :=
  if pat.isPrefixOf l then some ([], l.drop pat.length)
  else
    match l with
    | [] => none
    | c :: rest => (splitFirst pat rest).map (fun p => (c :: p.1, p.2))

/-- Models `line.match(/^\- \[(.*?)\] \*\*(.*?)\*\*: (.*)/)`, returning the
three capture groups.  The dot excludes line terminators, so the match is
confined to the prefix of the line before any carriage return. -/
def matchEntryLine (line : String) : Option (String × String × String) :=
  let cs := line.toList.takeWhile (fun c =>
    c ≠ '\x0d' && c ≠ Char.ofNat 0x2028 && c ≠ Char.ofNat 0x2029)
  if "- [".toList.isPrefixOf cs then
    match splitFirst "] **".toList (cs.drop 3) with
    | none => none
    | some (g1, rest2) =>
      match splitFirst "**: ".toList rest2 with
      | none => none
      | some (g2, g3) => some (String.mk g1, String.mk g2, String.mk g3)
  else none

/-- Models `content.match(/Tags: (.*?)$/)`: the capture runs from just after
the first occurrence of `Tags: ` to the end of the string. -/
def tagsClause (content : String) : Option String :=
  (splitFirst "Tags: ".toList content.toList).map (fun p => String.mk p.2)

/-- Models `t.replace(/,$/, '')`: strip one trailing comma. -/
def stripTrailingComma (t : String) : String :=
  match t.toList.reverse with
  | ',' :: rest => String.mk rest.reverse
  | _ => t

/-- Process one line of the markdown fallback: either the bullet-entry
pattern, or (when the trimmed line starts with an opening brace) a
standalone JSON object whose per-line parse or processing failure is
silently dropped by the inner `try`. -/
def lineEntry (line : String) : Option ParsedEntry :=
  match matchEntryLine line with
  | some g =>
    let content := g.2.2
    let tags : List String :=
      match tagsClause content with
      | some t => (jsSplit t ',').map jsTrim
      | none => []
    let name := (jsSplit content '\n').headD ""
    let id := g.2.1
    some { id := id, name := name, tags := tags, fingerprint := none, nrci := none,
           raw := "Markdown Line", category := categorize id name tags }
  | none =>
    if jsStartsWith (jsTrim line) "\x7b" then
      match jsonParse (stripTrailingComma (jsTrim line)) with
      | some item =>
        match processItemWith "JSON Line" item with
        | .ok e => some e
        | .error _ => none
      | none => none
    else none

/-- The whole markdown fallback: scan every line in order, collecting the
recognized entries. -/
def lineScan (s : String) : List ParsedEntry :=
  (jsSplit s '\n').filterMap lineEntry

/-! ## The top-level system parse (lines 147-205) -/

/-- The ordered entry sequence the component computes for `systemKb`
(the `entries` array of `parsedSystem`): try `JSON.parse(systemKb || "[]")`
first; on a parse failure, or on a mid-iteration type error (which keeps
the entries already pushed), fall back to the line scan. -/
def parsedSystemEntries (s : String) : List ParsedEntry :=
  match jsonParse (if s == "" then "[]" else s) with
  | some j =>
    match topLevelList j with
    | .ok items =>
      let p := structuredRun items
      if p.2 then p.1 else p.1 ++ lineScan s
    | .error _ => lineScan s
  | none => lineScan s

/-! ## Aggregation (lines 207-234) -/

/-- Keys of `statsMap` in insertion order: first occurrence of each
category in entry order (JavaScript object key order). -/
def statKeys (cats : List String) : List String :=
  cats.foldl (fun ks c => if c ∈ ks then ks else ks ++ [c]) []

/-- Models `x.toFixed(1)` as exact decimal rounding of the rational value:
nearest multiple of `1/10`, ties toward the larger value (ECMAScript picks
the larger candidate `n`). -/
def toFixed1 (q : ℚ) : ℚ := (⌊q * 10 + 1 / 2⌋ : ℚ) / 10

/-- The fixed human-readable description attached to each category code
(the `switch` at lines 217-226). -/
def descFor (code : String) : String :=
  if code == "SUBSTANCE" then "Stable Matter & Elements (Bit 12=1)"
  else if code == "ORGANISM" then "Biological & Complex Systems"
  else if code == "ALGORITHM" then "Logic, Code & Information"
  else if code == "QUANTITY" then "Pure Magnitude & Constants (Bit 12=0)"
  else if code == "MECHANISM" then "Physical Interactions & Reactions"
  else if code == "IMPERATIVE" then "System Laws & Constraints"
  else if code == "ENTROPY" then "Chaos, Void & Dissolution"
  else if code == "MEANING" then "Semantic & Linguistic Value"
  else "Unknown Domain"

/-- One row of the aggregate table for category `code`. -/
def mkStat (cats : List String) (total : Nat) (code : String) : CategoryStat :=
  { code := code
    count := cats.count code
    description := descFor code
    percent := if 0 < total then toFixed1 (((cats.count code : ℚ) / (total : ℚ)) * 100) else 0 }

/-- The comparator `(a, b) => b.count - a.count` as a sorting relation:
`a` may precede `b` exactly when `b.count ≤ a.count`. -/
def statRel (a b : CategoryStat) : Prop := b.count ≤ a.count

instance : DecidableRel statRel := fun a b => Nat.decLe b.count a.count

/-- The aggregation stage: group by category, count, compute percentages,
and sort by count descending.  `Array.prototype.sort` is specified only to
produce a sorted permutation of consistent-comparator input (it is stable;
tie order among equal counts is not constrained by the spec or the claims),
modelled here by a stable insertion sort. -/
def statsOf (entries : List ParsedEntry) : List CategoryStat :=
  let cats := entries.map (fun e => e.category)
  let total := entries.length
  List.insertionSort statRel ((statKeys cats).map (mkStat cats total))

/-- The `categoryStats` value computed by the component for `systemKb`. -/
def categoryStats (s : String) : List CategoryStat := statsOf (parsedSystemEntries s)

/-- The spec's `classify(rawText) -> (entries, stats)` contract function:
the pair the `useMemo` at lines 36-237 returns.  Total by construction —
no input makes it signal an error. -/
def classify (s : String) : List ParsedEntry × List CategoryStat :=
  (parsedSystemEntries s, categoryStats s)

/-! ## Belief parsing (lines 239-264) -/

/-- Process one element of a belief array exactly as the source does
(throws iff the element is `null`, because of the property accesses). -/
def beliefItem (item : Json) : Except Unit ParsedBelief :=
  match getField item "ubp_id", getField item "id", getField item "name",
        getField item "description", getField item "nrci_score" with
  | .ok u, .ok i, .ok n, .ok d, .ok sc =>
    .ok { id := jsOr u (jsOr i (jsOr n (Json.str "Unknown")))
          description := jsOr d (jsOr n (Json.str "No Description"))
          certainty := if truthyOpt sc then sc else none }
  | _, _, _, _, _ => .error ()

/-- Array branch of the belief parser: push per element until the first
throwing element; entries pushed before the exception are kept. -/
def beliefArrayRun : List Json → List ParsedBelief
  | [] => []
  | item :: rest =>
    match beliefItem item with
    | .ok b => b :: beliefArrayRun rest
    | .error _ => []

/-- Process one `Object.entries` pair of a belief dictionary (the key is
the id; note the source reads `value.name` before `value.description`).
Throws iff the value is `null`. -/
def beliefPair (kv : String × Json) : Except Unit ParsedBelief :=
  match getField kv.2 "name", getField kv.2 "description", getField kv.2 "nrci_score" with
  | .ok n, .ok d, .ok sc =>
    .ok { id := Json.str kv.1
          description := jsOr n (jsOr d (Json.str "No Description"))
          certainty := if truthyOpt sc then sc else none }
  | _, _, _ => .error ()

/-- Dictionary branch of the belief parser, stopping at the first throwing
value while keeping earlier pushes. -/
def beliefObjRun : List (String × Json) → List ParsedBelief
  | [] => []
  | kv :: rest =>
    match beliefPair kv with
    | .ok b => b :: beliefObjRun rest
    | .error _ => []

/-- The `parsedBeliefs` value: parse `beliefsKb || "{}"` as JSON; arrays
and objects produce entries, any other value (or a parse failure) yields
the empty list; a processing exception keeps the entries pushed so far. -/
def parsedBeliefs (s : String) : List ParsedBelief :=
  match jsonParse (if s == "" then "\x7b\x7d" else s) with
  | none => []
  | some (.arr l) => beliefArrayRun l
  | some (.obj kvs) => beliefObjRun kvs
  | some _ => []

/-! ## Claim theorems -/

/-- The nine category codes an entry can carry. -/
def categoryLabels : List String :=
  ["SUBSTANCE", "ORGANISM", "ALGORITHM", "QUANTITY", "MECHANISM",
   "IMPERATIVE", "ENTROPY", "MEANING", "UNCATEGORIZED"]

/-- The eight canonical domain names in the fixed order rule 1 of the
cascade tests them. -/
def canonicalOrder : List String :=
  ["SUBSTANCE", "ORGANISM", "ALGORITHM", "QUANTITY", "MECHANISM",
   "IMPERATIVE", "ENTROPY", "MEANING"]

/-- Evaluation rule for `toFixed1` at concrete values: if `z ≤ 10q + 1/2 < z + 1`
then `toFixed1 q = z / 10`. -/
lemma toFixed1_eq {q : ℚ} {z : ℤ} (h1 : (z : ℚ) ≤ q * 10 + 1 / 2)
    (h2 : q * 10 + 1 / 2 < z + 1) : toFixed1 q = (z : ℚ) / 10 := by
  unfold toFixed1
  rw [Int.floor_eq_iff.mpr ⟨h1, h2⟩]

/-- Claim C1: whenever the identifier, normalized the way the source
normalizes it (`toUpperCase().trim()`), starts with `LAW_`, `categorize`
returns `IMPERATIVE` for every name and every tag list — the id override
outranks all tag rules, including explicit canonical tags. -/
theorem spec_c1_law_id_override (id name : String) (tags : List String)
    (h : jsStartsWith (normUp id) "LAW_" = true) :
    categorize id name tags = "IMPERATIVE" := by
  simp only [categorize]
  rw [h]
  simp

/-- Witness for C1 at a concrete input, with an explicit conflicting
`SUBSTANCE` tag. -/
theorem spec_c1_witness :
    jsStartsWith (normUp "LAW_X") "LAW_" = true ∧
    categorize "LAW_X" "Some law" ["SUBSTANCE"] = "IMPERATIVE" :=
  ⟨by decide, spec_c1_law_id_override "LAW_X" "Some law" ["SUBSTANCE"] (by decide)⟩

/-- Helper: an if-then-else lands in `L` when both branches do. -/
lemma ite_mem_of_mem {c : Prop} [Decidable c] {a b : String} {L : List String}
    (ha : a ∈ L) (hb : b ∈ L) : (if c then a else b) ∈ L := by
  split <;> assumption

/-- Helper: the tag cascade always lands in the nine category labels. -/
lemma tagCascade_mem_labels (combined : List String) :
    tagCascade combined ∈ categoryLabels := by
  unfold tagCascade
  repeat' refine ite_mem_of_mem (by decide) ?_
  decide

/-- Claim C8: `categorize` is a total function producing exactly one label,
and that label is always one of the nine category codes (the eight domains
or `UNCATEGORIZED`); classified entries therefore carry exactly one of the
nine labels — never zero, never more than one. -/
theorem spec_c8_exactly_one_label (id name : String) (tags : List String) :
    categorize id name tags ∈ categoryLabels := by
  simp only [categorize]
  exact ite_mem_of_mem (by decide) (tagCascade_mem_labels _)

/-- Claim C3: the classifier never signals an error — it is a total
function on strings — and on both the empty input and a non-JSON,
non-bullet input it returns the empty entry and statistics sequences. -/
theorem spec_c3_never_fails :
    (∀ s : String, ∃ es st, classify s = (es, st)) ∧
    classify "" = ([], []) ∧
    classify "not json and no bullets" = ([], []) :=
  ⟨fun _ => ⟨_, _, rfl⟩, rfl, rfl⟩

/-- Claim C7: the markdown bullet line is parsed into exactly one entry
with id `ID1` and tags `chemistry`, `lab`, classified `SUBSTANCE` (with
percentage 100 in the aggregate). -/
theorem spec_c7_markdown_line :
    classify "- [x] **ID1**: Some description. Tags: chemistry, lab\n" =
      ([{ id := "ID1", name := "Some description. Tags: chemistry, lab",
          tags := ["chemistry", "lab"], fingerprint := none, nrci := none,
          raw := "Markdown Line", category := "SUBSTANCE" }],
       [{ code := "SUBSTANCE", count := 1,
          description := "Stable Matter & Elements (Bit 12=1)", percent := 100 }]) := by
  have hst : statsOf (parsedSystemEntries "- [x] **ID1**: Some description. Tags: chemistry, lab\n") =
      [mkStat ["SUBSTANCE"] 1 "SUBSTANCE"] := rfl
  have hpc : toFixed1 (100 : ℚ) = 100 := by
    rw [toFixed1_eq (z := 1000) (by norm_num) (by norm_num)]
    norm_num
  refine Prod.ext rfl ?_
  show statsOf (parsedSystemEntries "- [x] **ID1**: Some description. Tags: chemistry, lab\n") = _
  rw [hst]
  simp only [mkStat, descFor]
  norm_num [hpc]

/-- Counterexample to C2 as stated: the entry `("X", "N", [ORGANISM,
SUBSTANCE])` carries the canonical tag `ORGANISM` and its id does not start
with `LAW_`, yet `categorize` does not return `ORGANISM` — the cascade's
fixed order makes `SUBSTANCE` win. -/
theorem spec_c2_counterexample :
    jsStartsWith (normUp "X") "LAW_" = false ∧
    ((["ORGANISM", "SUBSTANCE"] ++ ["N"]).map normUp).contains "ORGANISM" = true ∧
    categorize "X" "N" ["ORGANISM", "SUBSTANCE"] ≠ "ORGANISM" := by
  refine ⟨by decide, by decide, ?_⟩
  decide

/-- Claim C2 as amended: when the id does not start with `LAW_` (normalized) and
`D` is the **first** canonical domain name, in the cascade's fixed order
`SUBSTANCE, ORGANISM, ALGORITHM, QUANTITY, MECHANISM, IMPERATIVE, ENTROPY,
MEANING`, that occurs (case-normalized, exact equality) among the tags or
the name, then `categorize` returns `D`. -/
theorem spec_c2_explicit_tag (id name : String) (tags : List String) (D : String)
    (hlaw : jsStartsWith (normUp id) "LAW_" = false)
    (hfind : canonicalOrder.find? (fun d => ((tags ++ [name]).map normUp).contains d) = some D) :
    categorize id name tags = D := by
  simp only [categorize, hlaw, Bool.false_eq_true, if_false]
  set combined := (tags ++ [name]).map normUp with hc
  unfold canonicalOrder at hfind
  by_cases h1 : combined.contains "SUBSTANCE" = true
  · rw [List.find?_cons_of_pos _ h1] at hfind
    injection hfind with h
    subst h
    unfold tagCascade
    rw [if_pos h1]
  · rw [List.find?_cons_of_neg _ h1] at hfind
    by_cases h2 : combined.contains "ORGANISM" = true
    · rw [List.find?_cons_of_pos _ h2] at hfind
      injection hfind with h
      subst h
      unfold tagCascade
      rw [if_neg h1, if_pos h2]
    · rw [List.find?_cons_of_neg _ h2] at hfind
      by_cases h3 : combined.contains "ALGORITHM" = true
      · rw [List.find?_cons_of_pos _ h3] at hfind
        injection hfind with h
        subst h
        unfold tagCascade
        rw [if_neg h1, if_neg h2, if_pos h3]
      · rw [List.find?_cons_of_neg _ h3] at hfind
        by_cases h4 : combined.contains "QUANTITY" = true
        · rw [List.find?_cons_of_pos _ h4] at hfind
          injection hfind with h
          subst h
          unfold tagCascade
          rw [if_neg h1, if_neg h2, if_neg h3, if_pos h4]
        · rw [List.find?_cons_of_neg _ h4] at hfind
          by_cases h5 : combined.contains "MECHANISM" = true
          · rw [List.find?_cons_of_pos _ h5] at hfind
            injection hfind with h
            subst h
            unfold tagCascade
            rw [if_neg h1, if_neg h2, if_neg h3, if_neg h4, if_pos h5]
          · rw [List.find?_cons_of_neg _ h5] at hfind
            by_cases h6 : combined.contains "IMPERATIVE" = true
            · rw [List.find?_cons_of_pos _ h6] at hfind
              injection hfind with h
              subst h
              unfold tagCascade
              rw [if_neg h1, if_neg h2, if_neg h3, if_neg h4, if_neg h5, if_pos h6]
            · rw [List.find?_cons_of_neg _ h6] at hfind
              by_cases h7 : combined.contains "ENTROPY" = true
              · rw [List.find?_cons_of_pos _ h7] at hfind
                injection hfind with h
                subst h
                unfold tagCascade
                rw [if_neg h1, if_neg h2, if_neg h3, if_neg h4, if_neg h5, if_neg h6, if_pos h7]
              · rw [List.find?_cons_of_neg _ h7] at hfind
                by_cases h8 : combined.contains "MEANING" = true
                · rw [List.find?_cons_of_pos _ h8] at hfind
                  injection hfind with h
                  subst h
                  unfold tagCascade
                  rw [if_neg h1, if_neg h2, if_neg h3, if_neg h4, if_neg h5, if_neg h6, if_neg h7, if_pos h8]
                · rw [List.find?_cons_of_neg _ h8] at hfind
                  simp at hfind

/-- Witness for the amended C2: a `QUANTITY` tag (with no earlier canonical
tag present) on a non-`LAW_` id yields `QUANTITY`. -/
theorem spec_c2_witness :
    categorize "NODE_7" "Counting" ["QUANTITY"] = "QUANTITY" :=
  spec_c2_explicit_tag "NODE_7" "Counting" ["QUANTITY"] "QUANTITY" (by decide) (by decide)

/-- Claim C10: a structured element whose `ubp_id` and `name` fields are
present but falsy is parsed exactly like one with the fields absent: the
`UNKNOWN` / `Untitled` defaults are triggered by JavaScript falsiness of
the field value, not only by its absence. -/
theorem spec_c10_falsy_defaults (v w : Json)
    (hv : truthy v = false) (hw : truthy w = false) :
    processItemWith "JSON Object" (Json.obj [("ubp_id", v), ("name", w)]) =
      processItemWith "JSON Object" (Json.obj []) ∧
    processItemWith "JSON Object" (Json.obj [("ubp_id", v), ("name", w)]) =
      .ok { id := "UNKNOWN", name := "Untitled", tags := [], fingerprint := none,
            nrci := none, raw := "JSON Object",
            category := categorize "UNKNOWN" "Untitled" [] } := by
  have hu : jsOr (some v) (Json.str "UNKNOWN") = Json.str "UNKNOWN" := by
    simp [jsOr, hv]
  have hn : jsOr (some w) (Json.str "Untitled") = Json.str "Untitled" := by
    simp [jsOr, hw]
  have e1 : getField (Json.obj [("ubp_id", v), ("name", w)]) "tags" = Except.ok none := rfl
  have e2 : getField (Json.obj [("ubp_id", v), ("name", w)]) "ubp_id" = Except.ok (some v) := rfl
  have e3 : getField (Json.obj [("ubp_id", v), ("name", w)]) "name" = Except.ok (some w) := rfl
  have e4 : getField (Json.obj [("ubp_id", v), ("name", w)]) "fingerprint" = Except.ok none := rfl
  have e5 : getField (Json.obj [("ubp_id", v), ("name", w)]) "nrci" = Except.ok none := rfl
  have hmain : processItemWith "JSON Object" (Json.obj [("ubp_id", v), ("name", w)]) =
      .ok { id := "UNKNOWN", name := "Untitled", tags := [], fingerprint := none,
            nrci := none, raw := "JSON Object",
            category := categorize "UNKNOWN" "Untitled" [] } := by
    simp only [processItemWith, e1, e2, e3, e4, e5]
    rw [hu, hn]
    rfl
  exact ⟨hmain.trans (by rfl), hmain⟩

/-- Witness for C10 with empty-string field values. -/
theorem spec_c10_witness :
    truthy (Json.str "") = false ∧
    processItemWith "JSON Object" (Json.obj [("ubp_id", Json.str ""), ("name", Json.str "")]) =
      processItemWith "JSON Object" (Json.obj []) :=
  ⟨rfl, (spec_c10_falsy_defaults (Json.str "") (Json.str "") rfl rfl).1⟩

/-- Concrete input for the C4 counterexample: valid whole-document JSON
whose third element has a numeric `ubp_id`. -/
def c4Input : String :=
  "[\x7b\"ubp_id\":\"A\"\x7d,\n\x7b\"ubp_id\":\"B\"\x7d,\n\x7b\"ubp_id\":5\x7d]"

/-- Counterexample to C4 as stated: `c4Input` parses as JSON as a whole,
yet the classifier's output mixes structured-shape entries with a
line-scan entry, because the numeric `ubp_id` raises a `TypeError` midway
through the structured iteration and the `catch` block then runs the
line-based fallback over the same input (duplicating entry `B`). -/
theorem spec_c4_counterexample :
    (jsonParse c4Input).isSome = true ∧
    (classify c4Input).1.map (fun e => e.raw) = ["JSON Object", "JSON Object", "JSON Line"] ∧
    "JSON Line" ≠ "JSON Object" := by
  refine ⟨rfl, ?_, by decide⟩
  rfl

/-- Helper: a successfully processed item always carries the `raw` marker
it was processed with. -/
lemma processItemWith_raw {r : String} {item : Json} {e : ParsedEntry}
    (h : processItemWith r item = Except.ok e) : e.raw = r := by
  unfold processItemWith at h
  repeat' split at h
  all_goals simp_all
  subst h
  rfl

/-- Helper: every entry produced by the structured stage is marked
`JSON Object`. -/
lemma structuredRun_raw :
    ∀ items : List Json, ∀ e ∈ (structuredRun items).1, e.raw = "JSON Object" := by
  intro items
  induction items with
  | nil => simp [structuredRun]
  | cons item rest ih =>
    intro e he
    unfold structuredRun at he
    revert he
    cases hp : processItemWith "JSON Object" item with
    | error _ => simp
    | ok a =>
      simp only [List.mem_cons]
      rintro (rfl | hmem)
      · exact processItemWith_raw hp
      · exact ih e hmem

/-- Claim C4 as amended: when whole-input JSON parsing succeeds **and** every
element of the resulting list is processed without a type error (the
structured stage completes), the line-based fallback is skipped entirely:
the output is exactly the structured entries and every entry is a
structured-shape entry.  (When the structured stage throws midway, the
source keeps the entries already pushed and runs the line scan in the
`catch`, so the two shapes can mix — see the counterexample.) -/
theorem spec_c4_json_skips_lines (s : String) (j : Json) (items : List Json)
    (hp : jsonParse s = some j)
    (hv : topLevelList j = Except.ok items)
    (hok : (structuredRun items).2 = true) :
    (classify s).1 = (structuredRun items).1 ∧
    ∀ e ∈ (classify s).1, e.raw = "JSON Object" := by
  have hne : s ≠ "" := by
    intro hh
    subst hh
    rw [show jsonParse "" = none from rfl] at hp
    cases hp
  have hs : (s == "") = false := beq_eq_false_iff_ne.mpr hne
  have hmain : (classify s).1 = (structuredRun items).1 := by
    show parsedSystemEntries s = _
    unfold parsedSystemEntries
    rw [hs]
    simp only [Bool.false_eq_true, if_false, hp, hv, hok]
    simp [hok]
  refine ⟨hmain, ?_⟩
  rw [hmain]
  exact structuredRun_raw items

/-- Witness for the amended C4 at a well-typed concrete input. -/
theorem spec_c4_witness :
    (classify "[\x7b\"ubp_id\":\"X\"\x7d]").1 =
      (structuredRun [Json.obj [("ubp_id", Json.str "X")]]).1 :=
  (spec_c4_json_skips_lines "[\x7b\"ubp_id\":\"X\"\x7d]"
    (Json.arr [Json.obj [("ubp_id", Json.str "X")]])
    [Json.obj [("ubp_id", Json.str "X")]] rfl rfl rfl).1

/-- Claim C6: for every input, the aggregate statistics are sorted by count
in descending order (tie order among equal counts is unconstrained). -/
theorem spec_c6_sorted_desc (s : String) :
    ((classify s).2).Pairwise (fun a b => b.count ≤ a.count) := by
  haveI : IsTotal CategoryStat statRel := ⟨fun a b => Nat.le_total b.count a.count⟩
  haveI : IsTrans CategoryStat statRel := ⟨fun _ _ _ hab hbc => le_trans hbc hab⟩
  exact List.sorted_insertionSort statRel
    ((statKeys ((parsedSystemEntries s).map (fun e => e.category))).map
      (mkStat ((parsedSystemEntries s).map (fun e => e.category)) (parsedSystemEntries s).length))

/-- Counterexample to C9 as stated: (a) for an element carrying both `id`
and `ubp_id`, the code prefers `ubp_id` (the claim's "id is taken from id
or ubp_id" order would give `"A"`); (b) a `null` array element does not
become a defaulted `BeliefEntry` — the property access throws and the
`catch` leaves the list as collected so far (here empty), so not every
element becomes an entry. -/
theorem spec_c9_counterexample :
    (parsedBeliefs "[\x7b\"id\":\"A\",\"ubp_id\":\"B\"\x7d]").map (fun b => b.id) = [Json.str "B"] ∧
    Json.str "B" ≠ Json.str "A" ∧
    parsedBeliefs "[null]" = [] := by
  refine ⟨rfl, ?_, rfl⟩
  intro h
  injection h with h2
  exact absurd h2 (by decide)

/-- Is this JSON value `null`? -/
def isNull : Json → Bool
  | .null => true
  | _ => false

/-- Field lookup on a JSON value as the amended claim describes it (objects
have fields; anything else yields no value).  Never called on `null` under
the amended claim's hypotheses. -/
def fieldOf (v : Json) (key : String) : Option Json :=
  match v with
  | .obj kvs => kvs.lookup key
  | _ => none

/-- One belief entry per array element, as the amended claim words it: the
id is the first truthy of `ubp_id`, `id`, `name`, else the literal
`"Unknown"`; the description is the first truthy of `description`, `name`,
else `"No Description"`; the certainty is present when `nrci_score` is
truthy. -/
def beliefFromElement (item : Json) : ParsedBelief :=
  { id := jsOr (fieldOf item "ubp_id")
      (jsOr (fieldOf item "id") (jsOr (fieldOf item "name") (Json.str "Unknown")))
    description := jsOr (fieldOf item "description")
      (jsOr (fieldOf item "name") (Json.str "No Description"))
    certainty := if truthyOpt (fieldOf item "nrci_score") then fieldOf item "nrci_score" else none }

/-- One belief entry per dictionary pair, as the amended claim words it:
the key is the id and the value supplies the description (first truthy of
its `name`, `description` fields, else `"No Description"`). -/
def beliefFromPair (kv : String × Json) : ParsedBelief :=
  { id := Json.str kv.1
    description := jsOr (fieldOf kv.2 "name")
      (jsOr (fieldOf kv.2 "description") (Json.str "No Description"))
    certainty := if truthyOpt (fieldOf kv.2 "nrci_score") then fieldOf kv.2 "nrci_score" else none }

/-- Helper: on a non-`null` element the code's belief extraction succeeds
and agrees with the amended claim's description. -/
lemma beliefItem_ok {item : Json} (h : isNull item = false) :
    beliefItem item = Except.ok (beliefFromElement item) := by
  cases item <;> simp_all [isNull, beliefItem, beliefFromElement, getField, fieldOf]

/-- Helper: on a non-`null` value the code's dictionary extraction succeeds
and agrees with the amended claim's description. -/
lemma beliefPair_ok {kv : String × Json} (h : isNull kv.2 = false) :
    beliefPair kv = Except.ok (beliefFromPair kv) := by
  obtain ⟨k, v⟩ := kv
  cases v <;> simp_all [isNull, beliefPair, beliefFromPair, getField, fieldOf]

/-- Helper: the array branch maps cleanly when no element is `null`. -/
lemma beliefArrayRun_eq {l : List Json} (h : l.all (fun x => !isNull x) = true) :
    beliefArrayRun l = l.map beliefFromElement := by
  induction l with
  | nil => rfl
  | cons item rest ih =>
    simp only [List.all_cons, Bool.and_eq_true, Bool.not_eq_true'] at h
    simp only [beliefArrayRun, beliefItem_ok h.1, List.map_cons]
    rw [ih (by simpa using h.2)]

/-- Helper: the dictionary branch maps cleanly when no value is `null`. -/
lemma beliefObjRun_eq {kvs : List (String × Json)} (h : kvs.all (fun kv => !isNull kv.2) = true) :
    beliefObjRun kvs = kvs.map beliefFromPair := by
  induction kvs with
  | nil => rfl
  | cons kv rest ih =>
    simp only [List.all_cons, Bool.and_eq_true, Bool.not_eq_true'] at h
    simp only [beliefObjRun, beliefPair_ok h.1, List.map_cons]
    rw [ih (by simpa using h.2)]

/-- Claim C9 as amended: the belief store parses `beliefsKb || "{}"` as JSON.  On
a parse failure the result is the empty list (no fallback text parsing).
A JSON array maps each element to a `BeliefEntry` whose id is the first
truthy of `ubp_id`, `id`, `name` (in that order — `ubp_id` outranks `id`)
with final fallback `"Unknown"`, and whose description is the first truthy
of `description`, `name` with fallback `"No Description"`, provided no
element is `null` (a `null` element aborts the iteration, keeping earlier
entries).  A JSON object maps each key to an entry with the key as id and
the value's `name` or `description` as description, provided no value is
`null`.  Any other JSON value yields the empty list. -/
theorem spec_c9_belief_parsing (s : String) :
    (jsonParse (if s == "" then "\x7b\x7d" else s) = none → parsedBeliefs s = []) ∧
    (∀ l, jsonParse (if s == "" then "\x7b\x7d" else s) = some (Json.arr l) →
      l.all (fun x => !isNull x) = true → parsedBeliefs s = l.map beliefFromElement) ∧
    (∀ kvs, jsonParse (if s == "" then "\x7b\x7d" else s) = some (Json.obj kvs) →
      kvs.all (fun kv => !isNull kv.2) = true → parsedBeliefs s = kvs.map beliefFromPair) ∧
    (∀ j, jsonParse (if s == "" then "\x7b\x7d" else s) = some j →
      (isNull j = true ∨ (∃ b, j = Json.bool b) ∨ (∃ q, j = Json.num q) ∨ (∃ t, j = Json.str t)) →
      parsedBeliefs s = []) := by
  refine ⟨?_, ?_, ?_, ?_⟩
  · intro hp
    unfold parsedBeliefs
    rw [hp]
  · intro l hp hl
    unfold parsedBeliefs
    rw [hp]
    exact beliefArrayRun_eq hl
  · intro kvs hp hk
    unfold parsedBeliefs
    rw [hp]
    exact beliefObjRun_eq hk
  · intro j hp hj
    unfold parsedBeliefs
    rw [hp]
    rcases hj with h | ⟨b, rfl⟩ | ⟨q, rfl⟩ | ⟨t, rfl⟩
    · cases j <;> simp_all [isNull]
    · rfl
    · rfl
    · rfl

/-- Witness for the amended C9: an array with one object element, a
dictionary input, and a failing parse. -/
theorem spec_c9_witness :
    parsedBeliefs "[\x7b\"ubp_id\":\"U\"\x7d]" =
      [beliefFromElement (Json.obj [("ubp_id", Json.str "U")])] ∧
    parsedBeliefs "\x7b\"K\":\x7b\"name\":\"NM\"\x7d\x7d" =
      [beliefFromPair ("K", Json.obj [("name", Json.str "NM")])] ∧
    parsedBeliefs "oops" = [] :=
  ⟨(spec_c9_belief_parsing "[\x7b\"ubp_id\":\"U\"\x7d]").2.1
      [Json.obj [("ubp_id", Json.str "U")]] rfl rfl,
   (spec_c9_belief_parsing "\x7b\"K\":\x7b\"name\":\"NM\"\x7d\x7d").2.2.1
      [("K", Json.obj [("name", Json.str "NM")])] rfl rfl,
   (spec_c9_belief_parsing "oops").1 rfl⟩

/-- Helper: membership of the key-accumulating fold of `statKeys`. -/
lemma statKeys_go_mem (l : List String) : ∀ (acc : List String) (x : String),
    x ∈ l.foldl (fun ks c => if c ∈ ks then ks else ks ++ [c]) acc ↔ x ∈ acc ∨ x ∈ l := by
  induction l with
  | nil =>
    intro acc x
    simp
  | cons c t ih =>
    intro acc x
    simp only [List.foldl_cons]
    rw [ih]
    by_cases hc : c ∈ acc
    · simp only [if_pos hc, List.mem_cons]
      constructor
      · rintro (h | h)
        · exact Or.inl h
        · exact Or.inr (Or.inr h)
      · rintro (h | rfl | h)
        · exact Or.inl h
        · exact Or.inl hc
        · exact Or.inr h
    · simp only [if_neg hc, List.mem_append, List.mem_singleton, List.mem_cons]
      tauto

/-- Helper: the key-accumulating fold preserves `Nodup`. -/
lemma statKeys_go_nodup (l : List String) : ∀ acc : List String, acc.Nodup →
    (l.foldl (fun ks c => if c ∈ ks then ks else ks ++ [c]) acc).Nodup := by
  induction l with
  | nil =>
    intro acc h
    simpa using h
  | cons c t ih =>
    intro acc h
    simp only [List.foldl_cons]
    apply ih
    by_cases hc : c ∈ acc
    · simpa [hc] using h
    · simp only [if_neg hc]
      exact h.append (List.nodup_singleton c) (by simpa [List.disjoint_singleton] using hc)

/-- Helper: `statKeys` has no duplicate keys. -/
lemma statKeys_nodup (cats : List String) : (statKeys cats).Nodup :=
  statKeys_go_nodup cats [] List.nodup_nil

/-- Helper: `statKeys` holds exactly the categories that occur. -/
lemma mem_statKeys (cats : List String) (x : String) : x ∈ statKeys cats ↔ x ∈ cats := by
  simpa using statKeys_go_mem cats [] x

/-- Helper: `statKeys` is a permutation of `dedup`. -/
lemma statKeys_perm_dedup (cats : List String) : (statKeys cats).Perm cats.dedup := by
  apply List.perm_of_nodup_nodup_toFinset_eq (statKeys_nodup cats) (List.nodup_dedup cats)
  ext x
  simp [List.mem_toFinset, mem_statKeys, List.mem_dedup]

/-- Helper: the per-key counts sum to the number of entries. -/
lemma sum_statKeys_count (cats : List String) :
    ((statKeys cats).map (fun k => cats.count k)).sum = cats.length := by
  rw [((statKeys_perm_dedup cats).map (fun k => cats.count k)).sum_eq]
  exact List.sum_map_count_dedup_eq_length cats

/-- Helper: decimal rounding moves a value by at most `1/20`. -/
lemma toFixed1_sub_le (q : ℚ) : |toFixed1 q - q| ≤ 1 / 20 := by
  have h1 : (⌊q * 10 + 1 / 2⌋ : ℚ) ≤ q * 10 + 1 / 2 := Int.floor_le _
  have h2 : q * 10 + 1 / 2 < ⌊q * 10 + 1 / 2⌋ + 1 := Int.lt_floor_add_one _
  rw [abs_le]
  unfold toFixed1
  constructor <;> linarith

/-- Helper: a sum of decimally-rounded values stays within `1/20` per item
of the sum of the exact values. -/
lemma sum_toFixed1_close (ks : List String) (f : String → ℚ) :
    |(ks.map (fun k => toFixed1 (f k))).sum - (ks.map f).sum| ≤ (ks.length : ℚ) / 20 := by
  induction ks with
  | nil => simp
  | cons k t ih =>
    simp only [List.map_cons, List.sum_cons, List.length_cons]
    have h1 := toFixed1_sub_le (f k)
    have h2 := abs_add (toFixed1 (f k) - f k)
      ((t.map (fun k => toFixed1 (f k))).sum - (t.map f).sum)
    have e : toFixed1 (f k) + (t.map (fun k => toFixed1 (f k))).sum - (f k + (t.map f).sum)
        = (toFixed1 (f k) - f k) + ((t.map (fun k => toFixed1 (f k))).sum - (t.map f).sum) := by
      ring
    rw [e]
    push_cast
    calc |(toFixed1 (f k) - f k) + ((t.map (fun k => toFixed1 (f k))).sum - (t.map f).sum)|
        ≤ |toFixed1 (f k) - f k| + |(t.map (fun k => toFixed1 (f k))).sum - (t.map f).sum| := h2
      _ ≤ 1 / 20 + (t.length : ℚ) / 20 := add_le_add h1 ih
      _ = ((t.length : ℚ) + 1) / 20 := by ring

/-- Concrete input for the C5 counterexample: three entries in three
distinct categories. -/
def c5Input : String :=
  "[\x7b\"ubp_id\":\"A\",\"tags\":[\"CHEMISTRY\"]\x7d,\x7b\"ubp_id\":\"B\",\"tags\":[\"BIOLOGY\"]\x7d,\x7b\"ubp_id\":\"C\",\"tags\":[\"MATH\"]\x7d]"

/-- Counterexample to C5 as stated: with three entries split over three
categories every percentage rounds to `33.3`, so the displayed percentages
sum to `99.9`, not `100` — the deviation is decimal rounding (up to `0.05`
per category), far beyond floating rounding. -/
theorem spec_c5_counterexample :
    (classify c5Input).1.length = 3 ∧
    (((classify c5Input).2).map (fun st => st.percent)).sum = 999 / 10 ∧
    (999 : ℚ) / 10 ≠ 100 := by
  refine ⟨rfl, ?_, by norm_num⟩
  have hL : (classify c5Input).2 =
      [mkStat ["SUBSTANCE", "ORGANISM", "QUANTITY"] 3 "SUBSTANCE",
       mkStat ["SUBSTANCE", "ORGANISM", "QUANTITY"] 3 "ORGANISM",
       mkStat ["SUBSTANCE", "ORGANISM", "QUANTITY"] 3 "QUANTITY"] := rfl
  rw [hL]
  have hc1 : List.count "SUBSTANCE" ["SUBSTANCE", "ORGANISM", "QUANTITY"] = 1 := rfl
  have hc2 : List.count "ORGANISM" ["SUBSTANCE", "ORGANISM", "QUANTITY"] = 1 := rfl
  have hc3 : List.count "QUANTITY" ["SUBSTANCE", "ORGANISM", "QUANTITY"] = 1 := rfl
  have h333 : toFixed1 ((100 : ℚ) / 3) = (333 : ℤ) / 10 :=
    toFixed1_eq (by norm_num) (by norm_num)
  simp only [List.map_cons, List.map_nil, List.sum_cons, List.sum_nil, mkStat,
    hc1, hc2, hc3]
  norm_num [h333]

/-- Claim C5 as amended: whenever at least one entry was parsed, every category
statistic's percentage is exactly `100 * count / total` rounded to one
decimal place (round half up), and the rounded percentages sum to `100`
within `1/20` (i.e. `0.05`) per listed category — not within mere floating
rounding, as the counterexample's `99.9` shows.  When no entry was parsed
the statistics list is empty, so no percentage is computed and no division
by zero occurs. -/
theorem spec_c5_percentages (s : String) :
    ((classify s).1 ≠ [] →
      (∀ st ∈ (classify s).2,
        st.percent = toFixed1 (((st.count : ℚ) / (((classify s).1.length : ℕ) : ℚ)) * 100)) ∧
      |(((classify s).2).map (fun st => st.percent)).sum - 100|
        ≤ (((classify s).2.length : ℕ) : ℚ) / 20) ∧
    ((classify s).1 = [] → (classify s).2 = []) := by
  constructor
  · intro hne
    have htpos : 0 < (parsedSystemEntries s).length := List.length_pos.mpr hne
    have hlen : ((parsedSystemEntries s).map (fun e => e.category)).length
        = (parsedSystemEntries s).length := List.length_map _ _
    have hstats : (classify s).2 = List.insertionSort statRel
        ((statKeys ((parsedSystemEntries s).map (fun e => e.category))).map
          (mkStat ((parsedSystemEntries s).map (fun e => e.category))
            (parsedSystemEntries s).length)) := rfl
    constructor
    · intro st hst
      rw [hstats] at hst
      have hmem := (List.perm_insertionSort statRel _).mem_iff.mp hst
      obtain ⟨k, hk, rfl⟩ := List.mem_map.mp hmem
      show (mkStat _ _ k).percent = _
      simp only [mkStat, if_pos htpos]
      rfl
    · have hperm := (List.perm_insertionSort statRel
        ((statKeys ((parsedSystemEntries s).map (fun e => e.category))).map
          (mkStat ((parsedSystemEntries s).map (fun e => e.category))
            (parsedSystemEntries s).length))).map (fun st => st.percent)
      have hsum1 : (((classify s).2).map (fun st => st.percent)).sum
          = ((((statKeys ((parsedSystemEntries s).map (fun e => e.category))).map
              (mkStat ((parsedSystemEntries s).map (fun e => e.category))
                (parsedSystemEntries s).length))).map (fun st => st.percent)).sum := by
        rw [hstats]
        exact hperm.sum_eq
      have hlen1 : ((classify s).2).length
          = ((statKeys ((parsedSystemEntries s).map (fun e => e.category))).map
              (mkStat ((parsedSystemEntries s).map (fun e => e.category))
                (parsedSystemEntries s).length)).length := by
        rw [hstats]
        exact (List.perm_insertionSort statRel _).length_eq
      have hbm : (((statKeys ((parsedSystemEntries s).map (fun e => e.category))).map
              (mkStat ((parsedSystemEntries s).map (fun e => e.category))
                (parsedSystemEntries s).length))).map (fun st => st.percent)
          = (statKeys ((parsedSystemEntries s).map (fun e => e.category))).map
              (fun k => toFixed1 (((((parsedSystemEntries s).map (fun e => e.category)).count k : ℚ)
                / ((parsedSystemEntries s).length : ℚ)) * 100)) := by
        rw [List.map_map]
        refine List.map_congr_left ?_
        intro k _
        simp only [Function.comp, mkStat, if_pos htpos]
      have hfsum : ((statKeys ((parsedSystemEntries s).map (fun e => e.category))).map
            (fun k => ((((parsedSystemEntries s).map (fun e => e.category)).count k : ℚ)
              / ((parsedSystemEntries s).length : ℚ)) * 100)).sum = 100 := by
        have hrw : ∀ k ∈ statKeys ((parsedSystemEntries s).map (fun e => e.category)),
            ((((parsedSystemEntries s).map (fun e => e.category)).count k : ℚ)
              / ((parsedSystemEntries s).length : ℚ)) * 100
            = ((((parsedSystemEntries s).map (fun e => e.category)).count k : ℚ))
              * (100 / ((parsedSystemEntries s).length : ℚ)) := by
          intro k _
          ring
        rw [List.map_congr_left hrw, List.sum_map_mul_right]
        have hc : ((statKeys ((parsedSystemEntries s).map (fun e => e.category))).map
            (fun k => ((((parsedSystemEntries s).map (fun e => e.category)).count k : ℕ) : ℚ))).sum
            = ((((parsedSystemEntries s).map (fun e => e.category)).length : ℕ) : ℚ) := by
          rw [show (fun k => ((((parsedSystemEntries s).map (fun e => e.category)).count k : ℕ) : ℚ))
              = (fun n : ℕ => (n : ℚ)) ∘ (fun k => ((parsedSystemEntries s).map (fun e => e.category)).count k)
              from rfl]
          rw [← List.map_map, ← Nat.cast_list_sum, sum_statKeys_count]
        rw [hc, hlen]
        have hne2 : ((parsedSystemEntries s).length : ℚ) ≠ 0 := by
          exact_mod_cast Nat.pos_iff_ne_zero.mp htpos
        field_simp
      have hclose := sum_toFixed1_close
        (statKeys ((parsedSystemEntries s).map (fun e => e.category)))
        (fun k => ((((parsedSystemEntries s).map (fun e => e.category)).count k : ℚ)
          / ((parsedSystemEntries s).length : ℚ)) * 100)
      rw [hfsum] at hclose
      rw [hsum1, hbm, hlen1, List.length_map]
      exact hclose
  · intro he
    show statsOf (parsedSystemEntries s) = []
    rw [show parsedSystemEntries s = [] from he]
    rfl

/-- Witness for the amended C5 at two concrete inputs: a one-entry input
(percentage `100`, within the bound) and the empty input (empty statistics,
no division). -/
theorem spec_c5_witness :
    ((classify "[\x7b\"ubp_id\":\"W\"\x7d]").1 ≠ [] ∧
      ∀ st ∈ (classify "[\x7b\"ubp_id\":\"W\"\x7d]").2,
        st.percent = toFixed1 (((st.count : ℚ)
          / (((classify "[\x7b\"ubp_id\":\"W\"\x7d]").1.length : ℕ) : ℚ)) * 100)) ∧
    ((classify "").1 = [] ∧ (classify "").2 = []) :=
  ⟨⟨by intro h; exact Nat.one_ne_zero (congrArg List.length h),
    ((spec_c5_percentages "[\x7b\"ubp_id\":\"W\"\x7d]").1
      (by intro h; exact Nat.one_ne_zero (congrArg List.length h))).1⟩,
   ⟨rfl, (spec_c5_percentages "").2 rfl⟩⟩
